import Mathlib

/-!
Verification of the dual-core benchmarking harness
(`dual-core-test/main/dual_core_test.c`).

The C program runs two worker tasks exchanging timestamped messages over a
bounded FreeRTOS queue, a mutex-guarded console sink (`safe_printf`), a
periodic monitor task, and a coordinator (`app_main`).  This file gives a
shallow embedding of the program: pure Lean functions for each task's loop
body, an explicit event trace for the observable behaviour (log lines, send
and receive attempts, delays), oracles (`Core0Env`, `Core1Env`, ...) for the
environment interactions (the monotonic timer `esp_timer_get_time`, the
outcome of a queue operation under concurrency), and a small labelled
transition system for the mutex-guarded sink.  Machine integers are modelled
as `Nat` reduced modulo `2^32` / `2^64` where the C code uses `uint32_t` /
`uint64_t`.
-/

/-- Modulus of `uint32_t` arithmetic. -/
def U32 : Nat := 2 ^ 32

/-- Modulus of `uint64_t` arithmetic. -/
def U64 : Nat := 2 ^ 64

/-- Wraparound `uint64_t` subtraction `a - b` (both operands reduced mod `2^64`). -/
def usub64 (a b : Nat) : Nat := (a % U64 + (U64 - b % U64)) % U64

/-- The message struct exchanged between the cores (`core_message_t` in the C
source: `uint32_t sender_core; uint32_t message_id; uint64_t timestamp;
char data[32]`).  The `data` field holds the C-string contents stored in the
32-byte array, up to (and excluding) the terminating NUL. -/
structure core_message_t where
  sender_core : Nat
  message_id : Nat
  timestamp : Nat
  data : String
deriving Repr, DecidableEq

/-- The string stored by `snprintf(dst, n, ...)` into an `n`-byte buffer: the
formatted text truncated to at most `n - 1` characters, always NUL-terminated.
(The model works at the level of the stored C string; the written byte count
is the stored length plus one for the NUL.) -/
def snprintfStr (n : Nat) (s : String) : String :=
  String.mk (s.data.take (n - 1))

/-- The text Worker A formats for iteration `i`:
`"Hello from Core 0 #%d"` with `i` substituted. -/
def core0MsgText (i : Nat) : String :=
  "Hello from Core 0 #" ++ toString i

/-- The message `core0_task` constructs at a sending iteration `i` when the
timer reads `ts`: sender core 0, message id `i`, the current timestamp, and
the `snprintf`-formatted payload bounded by `sizeof(message.data) = 32`. -/
def mkCore0Msg (i ts : Nat) : core_message_t :=
  { sender_core := 0
    message_id := i
    timestamp := ts
    data := snprintfStr 32 (core0MsgText i) }

/-- Observable events of a worker task: a log line emitted through the
serialized sink (`safe_printf`), a queue send attempt (with its message and
timeout in ms), a queue receive attempt (with its timeout in ms), and a
`vTaskDelay` of a given number of ms. -/
inductive Ev where
  | log (s : String)
  | sendAttempt (msg : core_message_t) (timeoutMs : Nat)
  | recvAttempt (timeoutMs : Nat)
  | delayMs (ms : Nat)
deriving Repr, DecidableEq

/-- Whether an event is a log line through the sink. -/
def isLogEv : Ev → Bool
  | Ev.log _ => true
  | _ => false

/-- The message ids of all send attempts in a trace. -/
def sendIdsOf (evs : List Ev) : List Nat :=
  evs.filterMap fun e =>
    match e with
    | Ev.sendAttempt m _ => some m.message_id
    | _ => none

/-- All send attempts (message and timeout) in a trace. -/
def sendAttemptsOf (evs : List Ev) : List (core_message_t × Nat) :=
  evs.filterMap fun e =>
    match e with
    | Ev.sendAttempt m t => some (m, t)
    | _ => none

/-- Environment oracle for `core0_task`: `time k` is the value of the `k`-th
call to `esp_timer_get_time` made by this task, and `sendOk i` is the outcome
of the `xQueueSend` performed at iteration `i` (abstracting the concurrently
shared queue: `true` iff space became available within the 100 ms timeout). -/
structure Core0Env where
  time : Nat → Nat
  sendOk : Nat → Bool

/-- Environment oracle for `core1_task`: `time k` as above, and `recv i` is
the outcome of the `xQueueReceive` at iteration `i` (`some m` iff a message
arrived within the 10 ms timeout). -/
structure Core1Env where
  time : Nat → Nat
  recv : Nat → Option core_message_t

/-- Local state of a worker task: the index of its next timer read, its
shared iteration counter (`uint32_t`), and its cumulative iteration-time
accumulator (`uint64_t`). -/
structure TaskState where
  clk : Nat
  counter : Nat
  totalTime : Nat
deriving Repr, DecidableEq

/-- The synthetic integer work of a `core0_task` iteration
(`for(j..1000) checksum += j * 997` in `uint32_t`).  The result is a dead
local in the C code: it is computed and discarded, with no observable
effect, so the task model below does not depend on it. -/
def core0Checksum : Nat :=
  (List.range 1000).foldl (fun acc j => (acc + j * 997) % U32) 0

/-- One iteration of the `core0_task` loop body: read `iteration_start`; do
the synthetic work (no observable effect); if `i % 10 == 0`, read the timer
again, construct the message and attempt `xQueueSend` with a 100 ms timeout,
logging `"Core 0: Sent message %d"` only when the send succeeded; increment
the counter (`uint32_t`); read the timer once more and accumulate the
iteration time (`uint64_t`); delay 50 ms. -/
def core0IterStep (env : Core0Env) (i : Nat) (st : TaskState) : TaskState × List Ev :=
  let tStart := env.time st.clk % U64
  if i % 10 == 0 then
    let ts := env.time (st.clk + 1) % U64
    let msg := mkCore0Msg i ts
    let sendEvs :=
      if env.sendOk i then
        [Ev.sendAttempt msg 100, Ev.log ("Core 0: Sent message " ++ toString i)]
      else
        [Ev.sendAttempt msg 100]
    let tEnd := env.time (st.clk + 2) % U64
    ({ clk := st.clk + 3
       counter := (st.counter + 1) % U32
       totalTime := (st.totalTime + usub64 tEnd tStart) % U64 },
     sendEvs ++ [Ev.delayMs 50])
  else
    let tEnd := env.time (st.clk + 1) % U64
    ({ clk := st.clk + 2
       counter := (st.counter + 1) % U32
       totalTime := (st.totalTime + usub64 tEnd tStart) % U64 },
     [Ev.delayMs 50])

/-- The `core0_task` loop over a list of iteration indices, threading the
task state and concatenating the event traces. -/
def core0Loop (env : Core0Env) : List Nat → TaskState → TaskState × List Ev
  | [], st => (st, [])
  | i :: rest, st =>
    let p := core0IterStep env i st
    let q := core0Loop env rest p.1
    (q.1, p.2 ++ q.2)

/-- The whole `core0_task`: read `task_start`, log the start banner, run 100
iterations, read `task_end`, log the completion line with the elapsed wall
time in ms. -/
def core0Task (env : Core0Env) : TaskState × List Ev :=
  let taskStart := env.time 0 % U64
  let r := core0Loop env (List.range 100) { clk := 1, counter := 0, totalTime := 0 }
  let taskEnd := env.time r.1.clk % U64
  (r.1,
   Ev.log "Core 0 Task Started (PRO_CPU)" ::
     r.2 ++ [Ev.log ("Core 0 Task Completed in " ++
       toString (usub64 taskEnd taskStart / 1000) ++ " ms")])

/-- One iteration of the `core1_task` loop body: read `iteration_start`; do
the synthetic floating-point work (a dead local, no observable effect);
attempt `xQueueReceive` with a 10 ms timeout; on success read the timer,
compute `latency = now - received_message.timestamp` in `uint64_t` and log
the received payload with its latency; increment the counter; read the timer
and accumulate the iteration time; delay 30 ms. -/
def core1IterStep (env : Core1Env) (i : Nat) (st : TaskState) : TaskState × List Ev :=
  let tStart := env.time st.clk % U64
  match env.recv i with
  | some m =>
    let now := env.time (st.clk + 1) % U64
    let latency := usub64 now m.timestamp
    let tEnd := env.time (st.clk + 2) % U64
    ({ clk := st.clk + 3
       counter := (st.counter + 1) % U32
       totalTime := (st.totalTime + usub64 tEnd tStart) % U64 },
     [Ev.recvAttempt 10,
      Ev.log ("Core 1: Received '" ++ m.data ++ "' (latency: " ++ toString latency ++ " μs)"),
      Ev.delayMs 30])
  | none =>
    let tEnd := env.time (st.clk + 1) % U64
    ({ clk := st.clk + 2
       counter := (st.counter + 1) % U32
       totalTime := (st.totalTime + usub64 tEnd tStart) % U64 },
     [Ev.recvAttempt 10, Ev.delayMs 30])

/-- The `core1_task` loop over a list of iteration indices. -/
def core1Loop (env : Core1Env) : List Nat → TaskState → TaskState × List Ev
  | [], st => (st, [])
  | i :: rest, st =>
    let p := core1IterStep env i st
    let q := core1Loop env rest p.1
    (q.1, p.2 ++ q.2)

/-- The whole `core1_task`: start banner, 150 iterations, completion line. -/
def core1Task (env : Core1Env) : TaskState × List Ev :=
  let taskStart := env.time 0 % U64
  let r := core1Loop env (List.range 150) { clk := 1, counter := 0, totalTime := 0 }
  let taskEnd := env.time r.1.clk % U64
  (r.1,
   Ev.log "Core 1 Task Started (APP_CPU)" ::
     r.2 ++ [Ev.log ("Core 1 Task Completed in " ++
       toString (usub64 taskEnd taskStart / 1000) ++ " ms")])

/-- The average-iteration-time expression used by both the monitor and the
final report: `counter > 0 ? total_time / counter : 0`. -/
def reportAvg (total count : Nat) : Nat :=
  if count > 0 then total / count else 0

/-- The FreeRTOS `pdMS_TO_TICKS` macro at tick rate `hz`:
`ms * configTICK_RATE_HZ / 1000` (integer division). -/
def pdMS_TO_TICKS (hz ms : Nat) : Nat := ms * hz / 1000

/-- Environment oracle for `monitor_task`: the tick rate, the tick count at
task start (`xTaskGetTickCount`), and the per-cycle snapshot reads of the two
workers' shared counters, the queue occupancy (`uxQueueMessagesWaiting`) and
the free heap size.  The counter reads are unsynchronized in the C code, so
they are arbitrary oracle values here. -/
structure MonitorEnv where
  tickRateHz : Nat
  startTick : Nat
  c0 : Nat → Nat
  t0 : Nat → Nat
  c1 : Nat → Nat
  t1 : Nat → Nat
  qwait : Nat → Nat
  heap : Nat → Nat

/-- One monitor report: the absolute tick at which the cycle woke
(`vTaskDelayUntil` deadline), the `Second %d` header index, and the reported
statistics. -/
structure MonitorReport where
  wakeTick : Nat
  second : Nat
  iters0 : Nat
  avg0 : Nat
  iters1 : Nat
  avg1 : Nat
  queueWaiting : Nat
  freeHeap : Nat
deriving Repr, DecidableEq

/-- The body of one monitor cycle `i` waking at tick `wake`: reads the shared
counters and reports both workers' iteration counts and average iteration
times (guarded against division by zero), the queue occupancy and the free
heap. -/
def monitorCycle (env : MonitorEnv) (i wake : Nat) : MonitorReport :=
  { wakeTick := wake
    second := i + 1
    iters0 := env.c0 i
    avg0 := reportAvg (env.t0 i) (env.c0 i)
    iters1 := env.c1 i
    avg1 := reportAvg (env.t1 i) (env.c1 i)
    queueWaiting := env.qwait i
    freeHeap := env.heap i }

/-- The `monitor_task` loop: `vTaskDelayUntil(&last_wake_time, pdMS_TO_TICKS(1000))`
advances the absolute deadline by one period each cycle, then the cycle body
runs; the loop threads `last_wake_time` exactly as the C code does. -/
def monitorLoop (env : MonitorEnv) : List Nat → Nat → List MonitorReport
  | [], _ => []
  | i :: rest, lastWake =>
    let wake := lastWake + pdMS_TO_TICKS env.tickRateHz 1000
    monitorCycle env i wake :: monitorLoop env rest wake

/-- The whole `monitor_task`: exactly 10 cycles starting from the initial
`xTaskGetTickCount` value, then the task deletes itself. -/
def monitorRun (env : MonitorEnv) : List MonitorReport :=
  monitorLoop env (List.range 10) env.startTick

/-- Environment oracle for `app_main`: the success of each resource creation
(`xQueueCreate`, `xSemaphoreCreateMutex`) and task creation
(`xTaskCreatePinnedToCore` twice, `xTaskCreate` once), and the final
unsynchronized snapshot of the workers' shared counters read for the final
report. -/
structure StartupEnv where
  queueOk : Bool
  mutexOk : Bool
  t0Ok : Bool
  t1Ok : Bool
  monOk : Bool
  finalC0 : Nat
  finalT0 : Nat
  finalC1 : Nat
  finalT1 : Nat

/-- Observable events of the coordinator `app_main`: a direct `printf`, the
creation of the queue (with its capacity), the creation of the sink mutex,
the creation of a task (name, pinned core if any, priority), and the
12-second wait. -/
inductive StartEv where
  | print (s : String)
  | createQueue (capacity : Nat)
  | createMutex
  | createTask (name : String) (core : Option Nat) (prio : Nat)
  | delay (ms : Nat)
deriving Repr, DecidableEq

/-- Whether a coordinator event creates (and thereby starts) a task. -/
def isCreateTaskEv : StartEv → Bool
  | StartEv.createTask _ _ _ => true
  | _ => false

/-- The final-report block of `app_main`: both workers' total iteration
counts and average iteration times (the averages use the division-by-zero
guard `counter > 0 ? total / counter : 0`). -/
def finalReportEvents (env : StartupEnv) : List StartEv :=
  [StartEv.print "=== Final Results ===",
   StartEv.print ("Core 0 total iterations: " ++ toString env.finalC0),
   StartEv.print ("Core 1 total iterations: " ++ toString env.finalC1),
   StartEv.print ("Core 0 average time per iteration: " ++
     toString (reportAvg env.finalT0 env.finalC0) ++ " μs"),
   StartEv.print ("Core 1 average time per iteration: " ++
     toString (reportAvg env.finalT1 env.finalC1) ++ " μs"),
   StartEv.print "Dual-core analysis complete!"]

/-- The coordinator `app_main`: banner; create the queue (capacity 10) and
the sink mutex; if either creation failed, report and return before any task
is created; otherwise create the two pinned worker tasks (priority 2) and the
unpinned monitor (priority 1); if any creation failed, report and return;
otherwise wait 12 s and emit the final report. -/
def appMain (env : StartupEnv) : List StartEv :=
  [StartEv.print "ESP32 Dual-Core Architecture Analysis",
   StartEv.print "=====================================",
   StartEv.createQueue 10,
   StartEv.createMutex] ++
  if !env.queueOk || !env.mutexOk then
    [StartEv.print "Failed to create synchronization objects!"]
  else
    [StartEv.print "Creating tasks...",
     StartEv.createTask "Core0Task" (some 0) 2,
     StartEv.createTask "Core1Task" (some 1) 2,
     StartEv.createTask "MonitorTask" none 1] ++
    if !env.t0Ok || !env.t1Ok || !env.monOk then
      [StartEv.print "Failed to create tasks!"]
    else
      [StartEv.print "Tasks created successfully. Monitoring dual-core performance...",
       StartEv.delay 12000] ++ finalReportEvents env

/-- The `xQueueSend` of the FreeRTOS queue viewed as a pure operation on the
buffer contents: enqueue at the tail if there is space (returns `true`),
otherwise leave the buffer unchanged and fail (returns `false`; in the C code
this is the outcome after the timeout elapsed with the queue still full). -/
def xQueueSend (cap : Nat) (buf : List core_message_t) (m : core_message_t) :
    List core_message_t × Bool :=
  if buf.length < cap then (buf ++ [m], true) else (buf, false)

/-- The `xQueueReceive` of the FreeRTOS queue viewed as a pure operation:
dequeue from the head if an element is present, otherwise return `none`
(the outcome after the timeout elapsed with the queue still empty). -/
def xQueueReceive (buf : List core_message_t) :
    List core_message_t × Option core_message_t :=
  match buf with
  | [] => ([], none)
  | m :: b => (b, some m)

/-- An operation on the channel: a send of a given message, or a receive. -/
inductive ChanOp where
  | send (m : core_message_t)
  | recv
deriving Repr, DecidableEq

/-- The buffer after one channel operation. -/
def chanStep (cap : Nat) (op : ChanOp) (buf : List core_message_t) :
    List core_message_t :=
  match op with
  | ChanOp.send m => (xQueueSend cap buf m).1
  | ChanOp.recv => (xQueueReceive buf).1

/-- The trajectory of buffer contents along a sequence of channel
operations (including the initial and final buffers). -/
def chanTraj (cap : Nat) : List ChanOp → List core_message_t → List (List core_message_t)
  | [], buf => [buf]
  | op :: rest, buf => buf :: chanTraj cap rest (chanStep cap op buf)

/-- The result of running a sequence of channel operations: the final buffer,
the list of messages the queue accepted (successful sends, in order), and the
list of messages dequeued (successful receives, in order). -/
structure ChanRun where
  buf : List core_message_t
  accepted : List core_message_t
  received : List core_message_t
deriving Repr, DecidableEq

/-- Run a sequence of channel operations, collecting the accepted and
received messages. -/
def runChanOps (cap : Nat) : List ChanOp → List core_message_t → ChanRun
  | [], buf => { buf := buf, accepted := [], received := [] }
  | ChanOp.send m :: rest, buf =>
    let r := xQueueSend cap buf m
    let q := runChanOps cap rest r.1
    if r.2 then
      { buf := q.buf, accepted := m :: q.accepted, received := q.received }
    else
      { buf := q.buf, accepted := q.accepted, received := q.received }
  | ChanOp.recv :: rest, buf =>
    let r := xQueueReceive buf
    let q := runChanOps cap rest r.1
    match r.2 with
    | some m => { buf := q.buf, accepted := q.accepted, received := m :: q.received }
    | none => { buf := q.buf, accepted := q.accepted, received := q.received }

/-- Configuration of the serialized console sink and its clients.  `safe_printf`
takes the sink mutex, formats and writes its text through `vprintf`, and gives
the mutex back; the underlying stream receives characters one at a time, so
mutual exclusion is what keeps a logical write contiguous.  `pending t` is the
list of texts task `t` still wants to write (each a `safe_printf` call);
`cur = some (t, s, k)` means task `t` holds the mutex and has pushed `k`
characters of its current text `s` to the stream; `output` is the character
stream so far, tagged with the writing task; `writesDone` records the completed
logical writes in completion order. -/
structure SinkCfg where
  pending : Nat → List (List Char)
  cur : Option (Nat × List Char × Nat)
  output : List (Nat × Char)
  writesDone : List (Nat × List Char)

/-- One step of the sink system.  `start` is the `xSemaphoreTake` at the top
of `safe_printf`: it can fire only when no task holds the mutex.  `put`
pushes one character of the current text to the shared stream and can fire
only for the mutex holder.  `finish` is the `xSemaphoreGive` at the bottom of
`safe_printf`, once the whole text has been written. -/
inductive SinkStep : SinkCfg → SinkCfg → Prop where
  | start (c : SinkCfg) (t : Nat) (s : List Char) (rest : List (List Char)) :
      c.cur = none → c.pending t = s :: rest →
      SinkStep c { pending := fun u => if u = t then rest else c.pending u
                   cur := some (t, s, 0)
                   output := c.output
                   writesDone := c.writesDone }
  | put (c : SinkCfg) (t : Nat) (s : List Char) (k : Nat) (h : k < s.length) :
      c.cur = some (t, s, k) →
      SinkStep c { c with output := c.output ++ [(t, s.get ⟨k, h⟩)]
                          cur := some (t, s, k + 1) }
  | finish (c : SinkCfg) (t : Nat) (s : List Char) :
      c.cur = some (t, s, s.length) →
      SinkStep c { c with cur := none
                          writesDone := c.writesDone ++ [(t, s)] }

/-- Reachability in the sink system. -/
def SinkReach : SinkCfg → SinkCfg → Prop :=
  Relation.ReflTransGen SinkStep

/-- The initial sink configuration: mutex free, empty stream, with each task
`t` intending the `safe_printf` calls `pend t`. -/
def sinkInit (pend : Nat → List (List Char)) : SinkCfg :=
  { pending := pend, cur := none, output := [], writesDone := [] }

/-- The contiguous block of characters task `t` contributes to the stream for
one logical write `s`. -/
def sinkBlock (p : Nat × List Char) : List (Nat × Char) :=
  p.2.map fun ch => (p.1, ch)

/-- The sink invariant: the character stream so far is exactly the completed
logical writes laid out as contiguous blocks, followed by the (partial) block
of the mutex holder, and the holder's progress index is in range. -/
def sinkInv (c : SinkCfg) : Prop :=
  (c.output = (c.writesDone.map sinkBlock).flatten ++
    (match c.cur with
     | some (t, s, k) => sinkBlock (t, s.take k)
     | none => [])) ∧
  (match c.cur with
   | some (_, s, k) => k ≤ s.length
   | none => True)

/-- A concrete message (the iteration-0 message with timer value 0), used as
a test fixture. -/
def msgW : core_message_t := mkCore0Msg 0 0

/-- A second concrete message (the iteration-10 message with timer value 7),
used as a test fixture. -/
def msgW2 : core_message_t := mkCore0Msg 10 7

/-- A concrete sequence of channel operations used as a test fixture. -/
def opsW : List ChanOp := [ChanOp.send msgW, ChanOp.send msgW2, ChanOp.recv]

/-- A concrete `core0_task` environment in which every send times out. -/
def env0fail : Core0Env := { time := fun _ => 0, sendOk := fun _ => false }

/-- A concrete `core0_task` environment in which every send succeeds. -/
def env0ok : Core0Env := { time := fun k => k, sendOk := fun _ => true }

/-- The initial local state of a worker task. -/
def stInit : TaskState := { clk := 0, counter := 0, totalTime := 0 }

/-- A concrete `core1_task` environment: the timer advances 100 µs per read
and a message arrives at iteration 0 only. -/
def env1W : Core1Env :=
  { time := fun k => 100 * k
    recv := fun i => if i = 0 then some msgW2 else none }

/-- A concrete startup environment in which the queue creation fails. -/
def startEnvFail : StartupEnv :=
  { queueOk := false, mutexOk := true, t0Ok := true, t1Ok := true, monOk := true
    finalC0 := 0, finalT0 := 0, finalC1 := 0, finalT1 := 0 }

/-- A concrete monitor environment used as a test fixture. -/
def monEnvW : MonitorEnv :=
  { tickRateHz := 100, startTick := 0
    c0 := fun _ => 3, t0 := fun _ => 12
    c1 := fun _ => 0, t1 := fun _ => 9
    qwait := fun _ => 1, heap := fun _ => 1000 }

/-- A concrete sink workload: task 0 makes one `safe_printf` call writing the
two characters `ab`; no other task writes. -/
def pendW : Nat → List (List Char) := fun t => if t = 0 then [['a', 'b']] else []

/-- The sink configuration reached after task 0 completes its single
`safe_printf` call under `pendW`. -/
def sinkFinalW : SinkCfg :=
  { pending := fun u => if u = 0 then [] else pendW u
    cur := none
    output := [(0, 'a'), (0, 'b')]
    writesDone := [(0, ['a', 'b'])] }

/-! Helper lemmas shared by several claim theorems. -/

theorem usub64_eq_sub (a b : Nat) (ha : a < U64) (hb : b ≤ a) : usub64 a b = a - b := by
  unfold usub64
  rw [Nat.mod_eq_of_lt ha, Nat.mod_eq_of_lt (lt_of_le_of_lt hb ha)]
  rw [show a + (U64 - b) = a - b + U64 by omega, Nat.add_mod_right]
  exact Nat.mod_eq_of_lt (by omega)

theorem core0IterStep_counter (env : Core0Env) (i : Nat) (st : TaskState) :
    (core0IterStep env i st).1.counter = (st.counter + 1) % U32 := by
  unfold core0IterStep
  by_cases h : (i % 10 == 0) = true <;> simp [h]

theorem core1IterStep_counter (env : Core1Env) (i : Nat) (st : TaskState) :
    (core1IterStep env i st).1.counter = (st.counter + 1) % U32 := by
  unfold core1IterStep
  cases env.recv i <;> simp

theorem core0Loop_counter (env : Core0Env) :
    ∀ (l : List Nat) (st : TaskState), st.counter < U32 →
      (core0Loop env l st).1.counter = (st.counter + l.length) % U32
  | [], st, h => by simp [core0Loop, Nat.mod_eq_of_lt h]
  | i :: rest, st, h => by
    have hc := core0IterStep_counter env i st
    have hlt : (core0IterStep env i st).1.counter < U32 := by
      rw [hc]; exact Nat.mod_lt _ (by norm_num [U32])
    have ih := core0Loop_counter env rest (core0IterStep env i st).1 hlt
    simp only [core0Loop, ih, hc, List.length_cons, Nat.mod_add_mod]
    ring_nf

theorem core1Loop_counter (env : Core1Env) :
    ∀ (l : List Nat) (st : TaskState), st.counter < U32 →
      (core1Loop env l st).1.counter = (st.counter + l.length) % U32
  | [], st, h => by simp [core1Loop, Nat.mod_eq_of_lt h]
  | i :: rest, st, h => by
    have hc := core1IterStep_counter env i st
    have hlt : (core1IterStep env i st).1.counter < U32 := by
      rw [hc]; exact Nat.mod_lt _ (by norm_num [U32])
    have ih := core1Loop_counter env rest (core1IterStep env i st).1 hlt
    simp only [core1Loop, ih, hc, List.length_cons, Nat.mod_add_mod]
    ring_nf

theorem core0IterStep_sendIds (env : Core0Env) (i : Nat) (st : TaskState) :
    sendIdsOf (core0IterStep env i st).2 = if i % 10 == 0 then [i] else [] := by
  unfold core0IterStep
  by_cases h : (i % 10 == 0) = true
  · by_cases hs : env.sendOk i = true <;> simp [h, hs, sendIdsOf, mkCore0Msg]
  · simp [h, sendIdsOf]

theorem sendIdsOf_append (a b : List Ev) :
    sendIdsOf (a ++ b) = sendIdsOf a ++ sendIdsOf b := by
  simp [sendIdsOf]

theorem core0Loop_sendIds (env : Core0Env) :
    ∀ (l : List Nat) (st : TaskState),
      sendIdsOf (core0Loop env l st).2 = l.filter (fun i => i % 10 == 0)
  | [], st => rfl
  | i :: rest, st => by
    have ih := core0Loop_sendIds env rest (core0IterStep env i st).1
    simp only [core0Loop]
    rw [sendIdsOf_append, core0IterStep_sendIds, ih, List.filter_cons]
    by_cases h : (i % 10 == 0) = true <;> simp [h]

theorem sendIdsOf_log_cons (s : String) (evs : List Ev) :
    sendIdsOf (Ev.log s :: evs) = sendIdsOf evs := by
  simp [sendIdsOf]

theorem core0IterStep_sendAttempts_hit (env : Core0Env) (i : Nat) (st : TaskState)
    (h : i % 10 = 0) :
    sendAttemptsOf (core0IterStep env i st).2 =
      [(mkCore0Msg i (env.time (st.clk + 1) % U64), 100)] := by
  unfold core0IterStep
  by_cases hs : env.sendOk i = true <;> simp [h, hs, sendAttemptsOf]

theorem core0IterStep_sendAttempts_miss (env : Core0Env) (i : Nat) (st : TaskState)
    (h : ¬ i % 10 = 0) :
    sendAttemptsOf (core0IterStep env i st).2 = [] := by
  unfold core0IterStep
  simp [h, sendAttemptsOf]

/-! Claim theorems. -/

/-- C2: Worker A attempts a send exactly on the iterations whose index is a
multiple of 10 — over its 100 iterations those are 0, 10, ..., 90, so exactly
10 messages are ever sent — and at such an iteration it performs exactly one
send attempt, of a message carrying the monotonic timestamp read at
construction, with a 100 ms timeout; all other iterations attempt no send. -/
theorem core0_sends_every_tenth_iteration :
    (∀ env : Core0Env,
      sendIdsOf (core0Task env).2 = [0, 10, 20, 30, 40, 50, 60, 70, 80, 90] ∧
      (sendIdsOf (core0Task env).2).length = 10) ∧
    (∀ (env : Core0Env) (i : Nat) (st : TaskState), i % 10 = 0 →
      sendAttemptsOf (core0IterStep env i st).2 =
        [(mkCore0Msg i (env.time (st.clk + 1) % U64), 100)]) ∧
    (∀ (env : Core0Env) (i : Nat) (st : TaskState), ¬ i % 10 = 0 →
      sendAttemptsOf (core0IterStep env i st).2 = []) := by
  refine ⟨fun env => ?_, core0IterStep_sendAttempts_hit, core0IterStep_sendAttempts_miss⟩
  have h : sendIdsOf (core0Task env).2 = [0, 10, 20, 30, 40, 50, 60, 70, 80, 90] := by
    simp only [core0Task, sendIdsOf_log_cons, sendIdsOf_append, core0Loop_sendIds]
    rfl
  exact ⟨h, by rw [h]; rfl⟩

/-- C2 witness: at the concrete all-sends-succeed environment the run attempts
exactly the ids 0, 10, ..., 90, and at iteration 10 from the initial state the
single send attempt carries the timer value read at construction and the
100 ms timeout. -/
theorem core0_sends_every_tenth_iteration_witness :
    sendIdsOf (core0Task env0ok).2 = [0, 10, 20, 30, 40, 50, 60, 70, 80, 90] ∧
    sendAttemptsOf (core0IterStep env0ok 10 stInit).2 =
      [(mkCore0Msg 10 (env0ok.time (stInit.clk + 1) % U64), 100)] :=
  ⟨(core0_sends_every_tenth_iteration.1 env0ok).1,
   core0_sends_every_tenth_iteration.2.1 env0ok 10 stInit rfl⟩

/-- C1 counterexample: at a concrete input where the iteration-0 send times
out, the send is attempted (and dropped) yet the iteration emits no log line
at all — contradicting the claim that a dropped send is logged. -/
theorem send_timeout_emits_no_log_cex :
    env0fail.sendOk 0 = false ∧
    sendAttemptsOf (core0IterStep env0fail 0 stInit).2 = [(mkCore0Msg 0 0, 100)] ∧
    (core0IterStep env0fail 0 stInit).2.filter isLogEv = [] := by
  refine ⟨rfl, ?_, ?_⟩ <;> rfl

/-- C1 amended: whenever Worker A's send times out the message is dropped
silently — the iteration emits no log line through the sink — and the
iteration continues (its counter is still incremented); and for every send
outcome the iteration performs at most one send attempt (no retry). -/
theorem send_timeout_silent_no_retry :
    (∀ (env : Core0Env) (i : Nat) (st : TaskState), env.sendOk i = false →
      (core0IterStep env i st).2.filter isLogEv = [] ∧
      (core0IterStep env i st).1.counter = (st.counter + 1) % U32) ∧
    (∀ (env : Core0Env) (i : Nat) (st : TaskState),
      (sendAttemptsOf (core0IterStep env i st).2).length ≤ 1) := by
  constructor
  · intro env i st h
    refine ⟨?_, core0IterStep_counter env i st⟩
    unfold core0IterStep
    by_cases hi : (i % 10 == 0) = true <;> simp [hi, h, isLogEv]
  · intro env i st
    by_cases hi : i % 10 = 0
    · rw [core0IterStep_sendAttempts_hit env i st hi]
      exact Nat.le_refl 1
    · rw [core0IterStep_sendAttempts_miss env i st hi]
      exact Nat.zero_le 1

/-- C1 witness: the amended statement instantiated at the concrete
failing-send environment, iteration 0, initial state. -/
theorem send_timeout_silent_no_retry_witness :
    ((core0IterStep env0fail 0 stInit).2.filter isLogEv = [] ∧
      (core0IterStep env0fail 0 stInit).1.counter = (stInit.counter + 1) % U32) ∧
    (sendAttemptsOf (core0IterStep env0fail 0 stInit).2).length ≤ 1 :=
  ⟨send_timeout_silent_no_retry.1 env0fail 0 stInit rfl,
   send_timeout_silent_no_retry.2 env0fail 0 stInit⟩

/-- C3: the average-iteration-time computation returns 0 when the iteration
count is 0 and `total / count` otherwise, and it is exactly the expression
used for both workers in every monitor cycle and in the final report. -/
theorem report_average_division_guard :
    (∀ total : Nat, reportAvg total 0 = 0) ∧
    (∀ total count : Nat, 0 < count → reportAvg total count = total / count) ∧
    (∀ (env : MonitorEnv) (i wake : Nat),
      (monitorCycle env i wake).avg0 = reportAvg (env.t0 i) (env.c0 i) ∧
      (monitorCycle env i wake).avg1 = reportAvg (env.t1 i) (env.c1 i)) ∧
    (∀ env : StartupEnv,
      StartEv.print ("Core 0 average time per iteration: " ++
        toString (reportAvg env.finalT0 env.finalC0) ++ " μs") ∈ finalReportEvents env ∧
      StartEv.print ("Core 1 average time per iteration: " ++
        toString (reportAvg env.finalT1 env.finalC1) ++ " μs") ∈ finalReportEvents env) := by
  refine ⟨fun total => rfl, fun total count h => ?_,
    fun env i wake => ⟨rfl, rfl⟩, fun env => ⟨?_, ?_⟩⟩
  · simp [reportAvg, h]
  · simp [finalReportEvents]
  · simp [finalReportEvents]

/-- C3 witness: the guard instantiated at concrete counters, including a
zero iteration count and one concrete monitor cycle. -/
theorem report_average_division_guard_witness :
    reportAvg 12 3 = 12 / 3 ∧ reportAvg 9 0 = 0 ∧
    (monitorCycle monEnvW 0 0).avg1 = reportAvg (monEnvW.t1 0) (monEnvW.c1 0) :=
  ⟨report_average_division_guard.2.1 12 3 (by norm_num),
   report_average_division_guard.1 9,
   (report_average_division_guard.2.2.1 monEnvW 0 0).2⟩

/-- C4: on every successful receive, Worker B's iteration emits (besides the
receive attempt and the delay) exactly one log line that embeds the received
payload text and the latency `now - enqueue_timestamp`, where `now` is the
timer value read at the dequeue (for a monotonic clock, the wraparound
subtraction is the exact difference); on a receive timeout the iteration
emits no log line. -/
theorem core1_receive_latency_report :
    (∀ (env : Core1Env) (i : Nat) (st : TaskState) (m : core_message_t),
      env.recv i = some m →
      (core1IterStep env i st).2 =
        [Ev.recvAttempt 10,
         Ev.log ("Core 1: Received '" ++ m.data ++ "' (latency: " ++
           toString (usub64 (env.time (st.clk + 1) % U64) m.timestamp) ++ " μs)"),
         Ev.delayMs 30] ∧
      (m.timestamp ≤ env.time (st.clk + 1) % U64 →
        usub64 (env.time (st.clk + 1) % U64) m.timestamp =
          env.time (st.clk + 1) % U64 - m.timestamp)) ∧
    (∀ (env : Core1Env) (i : Nat) (st : TaskState), env.recv i = none →
      (core1IterStep env i st).2.filter isLogEv = []) := by
  constructor
  · intro env i st m h
    constructor
    · unfold core1IterStep
      rw [h]
    · intro hle
      exact usub64_eq_sub _ _ (Nat.mod_lt _ (by norm_num [U64])) hle
  · intro env i st h
    unfold core1IterStep
    rw [h]
    rfl

/-- C4 witness: the concrete environment `env1W` delivers `msgW2`
(timestamp 7) at iteration 0; the timer reads 100 at the dequeue, the
iteration's trace is exactly the latency report line, and the latency is
`100 - 7 = 93`. -/
theorem core1_receive_latency_report_witness :
    ((core1IterStep env1W 0 stInit).2 =
      [Ev.recvAttempt 10,
       Ev.log ("Core 1: Received '" ++ msgW2.data ++ "' (latency: " ++
         toString (usub64 (env1W.time (stInit.clk + 1) % U64) msgW2.timestamp) ++ " μs)"),
       Ev.delayMs 30] ∧
     (msgW2.timestamp ≤ env1W.time (stInit.clk + 1) % U64 →
       usub64 (env1W.time (stInit.clk + 1) % U64) msgW2.timestamp =
         env1W.time (stInit.clk + 1) % U64 - msgW2.timestamp)) ∧
    (core1IterStep env1W 5 stInit).2.filter isLogEv = [] :=
  ⟨core1_receive_latency_report.1 env1W 0 stInit msgW2 rfl,
   core1_receive_latency_report.2 env1W 5 stInit rfl⟩

theorem core0IterStep_totalTime (env : Core0Env) (i : Nat) (st : TaskState) :
    ∃ d, (core0IterStep env i st).1.totalTime = (st.totalTime + d) % U64 := by
  unfold core0IterStep
  by_cases hi : (i % 10 == 0) = true <;> simp [hi] <;> exact ⟨_, rfl⟩

theorem core1IterStep_totalTime (env : Core1Env) (i : Nat) (st : TaskState) :
    ∃ d, (core1IterStep env i st).1.totalTime = (st.totalTime + d) % U64 := by
  unfold core1IterStep
  cases env.recv i <;> simp <;> exact ⟨_, rfl⟩

theorem core0Loop_counter_100 (env : Core0Env) :
    (core0Loop env (List.range 100) { clk := 1, counter := 0, totalTime := 0 }).1.counter
      = 100 := by
  rw [core0Loop_counter env _ _ (by norm_num [U32]), List.length_range]
  show ((0 : Nat) + 100) % U32 = 100
  norm_num [U32]

theorem core1Loop_counter_150 (env : Core1Env) :
    (core1Loop env (List.range 150) { clk := 1, counter := 0, totalTime := 0 }).1.counter
      = 150 := by
  rw [core1Loop_counter env _ _ (by norm_num [U32]), List.length_range]
  show ((0 : Nat) + 150) % U32 = 150
  norm_num [U32]

/-- C5: each worker increments its iteration counter by exactly one and its
cumulative-time accumulator exactly once per iteration, whatever the send or
receive outcome, and running the full loop from the loop-entry state (the
state after the start banner: counter 0) leaves Worker A's counter at 100 and
Worker B's at 150, for every environment. -/
theorem counters_incremented_each_iteration :
    (∀ (env : Core0Env) (i : Nat) (st : TaskState),
      (core0IterStep env i st).1.counter = (st.counter + 1) % U32 ∧
      ∃ d, (core0IterStep env i st).1.totalTime = (st.totalTime + d) % U64) ∧
    (∀ (env : Core1Env) (i : Nat) (st : TaskState),
      (core1IterStep env i st).1.counter = (st.counter + 1) % U32 ∧
      ∃ d, (core1IterStep env i st).1.totalTime = (st.totalTime + d) % U64) ∧
    (∀ env : Core0Env,
      (core0Loop env (List.range 100) { clk := 1, counter := 0, totalTime := 0 }).1.counter
        = 100) ∧
    (∀ env : Core1Env,
      (core1Loop env (List.range 150) { clk := 1, counter := 0, totalTime := 0 }).1.counter
        = 150) :=
  ⟨fun env i st => ⟨core0IterStep_counter env i st, core0IterStep_totalTime env i st⟩,
   fun env i st => ⟨core1IterStep_counter env i st, core1IterStep_totalTime env i st⟩,
   core0Loop_counter_100, core1Loop_counter_150⟩

/-- C10: for every iteration index up to 90, the formatted payload text fits
the 32-byte `data` field including its terminating NUL (so `snprintf` does
not even truncate), and the message constructor stores exactly that text in
`data` while the other fields are written independently of the payload. -/
theorem core0_payload_bounded :
    ∀ i : Nat, i ≤ 90 →
      (core0MsgText i).length + 1 ≤ 32 ∧
      ∀ ts : Nat,
        (mkCore0Msg i ts).data = core0MsgText i ∧
        (mkCore0Msg i ts).data.length + 1 ≤ 32 ∧
        (mkCore0Msg i ts).sender_core = 0 ∧
        (mkCore0Msg i ts).message_id = i ∧
        (mkCore0Msg i ts).timestamp = ts := by
  have key : ∀ i : Nat, i ≤ 90 →
      ((core0MsgText i).length + 1 ≤ 32 ∧
        snprintfStr 32 (core0MsgText i) = core0MsgText i) := by decide
  intro i hi
  obtain ⟨h1, h2⟩ := key i hi
  refine ⟨h1, fun ts => ⟨h2, ?_, rfl, rfl, rfl⟩⟩
  show (snprintfStr 32 (core0MsgText i)).length + 1 ≤ 32
  rw [h2]
  exact h1

/-- C10 witness: the bound instantiated at the largest sending iteration
index, 90, with timer value 0. -/
theorem core0_payload_bounded_witness :
    (core0MsgText 90).length + 1 ≤ 32 ∧
    (mkCore0Msg 90 0).data = core0MsgText 90 ∧
    (mkCore0Msg 90 0).data.length + 1 ≤ 32 :=
  ⟨(core0_payload_bounded 90 (by norm_num)).1,
   ((core0_payload_bounded 90 (by norm_num)).2 0).1,
   ((core0_payload_bounded 90 (by norm_num)).2 0).2.1⟩

theorem chanStep_length_le (cap : Nat) (op : ChanOp) (buf : List core_message_t)
    (h : buf.length ≤ cap) : (chanStep cap op buf).length ≤ cap := by
  cases op with
  | send m =>
    simp only [chanStep, xQueueSend]
    by_cases hl : buf.length < cap <;> simp [hl] <;> omega
  | recv =>
    cases buf with
    | nil => simp [chanStep, xQueueReceive]
    | cons m b =>
      simp only [chanStep, xQueueReceive]
      simp at h ⊢
      omega

theorem chanTraj_length_le (cap : Nat) :
    ∀ (ops : List ChanOp) (buf : List core_message_t), buf.length ≤ cap →
      ∀ b ∈ chanTraj cap ops buf, b.length ≤ cap
  | [], buf, h => by
    intro b hb
    simp only [chanTraj, List.mem_singleton] at hb
    subst hb; exact h
  | op :: rest, buf, h => by
    intro b hb
    simp only [chanTraj, List.mem_cons] at hb
    rcases hb with hb | hb
    · subst hb; exact h
    · exact chanTraj_length_le cap rest (chanStep cap op buf)
        (chanStep_length_le cap op buf h) b hb

theorem runChanOps_fifo (cap : Nat) :
    ∀ (ops : List ChanOp) (buf : List core_message_t),
      (runChanOps cap ops buf).received ++ (runChanOps cap ops buf).buf =
        buf ++ (runChanOps cap ops buf).accepted
  | [], buf => by simp [runChanOps]
  | ChanOp.send m :: rest, buf => by
    have ih := runChanOps_fifo cap rest (xQueueSend cap buf m).1
    by_cases hl : buf.length < cap
    · simp only [runChanOps, xQueueSend, hl, if_true] at ih ⊢
      simp only [ih]
      simp [List.append_assoc]
    · simp only [runChanOps, xQueueSend, hl, if_false] at ih ⊢
      simpa using ih
  | ChanOp.recv :: rest, buf => by
    cases buf with
    | nil =>
      have ih := runChanOps_fifo cap rest []
      simpa [runChanOps, xQueueReceive] using ih
    | cons m b =>
      have ih := runChanOps_fifo cap rest b
      simp only [runChanOps, xQueueReceive] at ih ⊢
      simp only [List.cons_append, ih]

/-- C6: along every sequence of sends and receives on the capacity-10 channel
starting empty, the occupancy stays within `[0, 10]` at every intermediate
state, and the messages dequeued so far followed by the current buffer are
exactly the messages accepted so far, in order — receives happen in FIFO
order of the successful sends. -/
theorem channel_occupancy_fifo :
    ∀ ops : List ChanOp,
      (∀ b ∈ chanTraj 10 ops [], 0 ≤ b.length ∧ b.length ≤ 10) ∧
      (runChanOps 10 ops []).received ++ (runChanOps 10 ops []).buf =
        (runChanOps 10 ops []).accepted := by
  intro ops
  refine ⟨fun b hb => ⟨Nat.zero_le _, ?_⟩, ?_⟩
  · exact chanTraj_length_le 10 ops [] (by simp) b hb
  · simpa using runChanOps_fifo 10 ops []

/-- C6 witness: the invariant and FIFO equation instantiated on the concrete
operation sequence `send msgW; send msgW2; recv` and the intermediate buffer
`[msgW]`. -/
theorem channel_occupancy_fifo_witness :
    (0 ≤ ([msgW] : List core_message_t).length ∧
      ([msgW] : List core_message_t).length ≤ 10) ∧
    (runChanOps 10 opsW []).received ++ (runChanOps 10 opsW []).buf =
      (runChanOps 10 opsW []).accepted :=
  ⟨(channel_occupancy_fifo opsW).1 [msgW] (by decide),
   (channel_occupancy_fifo opsW).2⟩

theorem monitorLoop_length (env : MonitorEnv) :
    ∀ (l : List Nat) (lw : Nat), (monitorLoop env l lw).length = l.length
  | [], _ => rfl
  | i :: rest, lw => by
    simp [monitorLoop, monitorLoop_length env rest]

theorem monitorLoop_wakeTicks (env : MonitorEnv) :
    ∀ (l : List Nat) (lw : Nat),
      (monitorLoop env l lw).map (fun r => r.wakeTick) =
        (List.range l.length).map
          (fun k => lw + (k + 1) * pdMS_TO_TICKS env.tickRateHz 1000)
  | [], _ => rfl
  | i :: rest, lw => by
    have ih := monitorLoop_wakeTicks env rest (lw + pdMS_TO_TICKS env.tickRateHz 1000)
    have hfun : (fun k => lw + pdMS_TO_TICKS env.tickRateHz 1000 +
          (k + 1) * pdMS_TO_TICKS env.tickRateHz 1000) =
        (fun k : Nat => lw + (k + 1 + 1) * pdMS_TO_TICKS env.tickRateHz 1000) := by
      funext k; ring
    simp only [monitorLoop, List.map_cons, ih, hfun, List.length_cons,
      List.range_succ_eq_map, List.map_map, monitorCycle, Function.comp]
    simp

/-- C7: the monitor performs exactly 10 reporting cycles for every
environment — whatever the workers' counters read — and the cycle wake times
are the absolute deadlines `startTick + (k+1) * pdMS_TO_TICKS(1000)`, a
drift-free 1-second cadence (at tick rate `hz`, `pdMS_TO_TICKS hz 1000 = hz`,
exactly one second of ticks); after the 10th cycle the run produces nothing
further. -/
theorem monitor_exactly_ten_cycles :
    ∀ env : MonitorEnv,
      (monitorRun env).length = 10 ∧
      (monitorRun env).map (fun r => r.wakeTick) =
        (List.range 10).map
          (fun k => env.startTick + (k + 1) * pdMS_TO_TICKS env.tickRateHz 1000) ∧
      pdMS_TO_TICKS env.tickRateHz 1000 = env.tickRateHz := by
  intro env
  refine ⟨?_, ?_, ?_⟩
  · rw [monitorRun, monitorLoop_length]
    rfl
  · rw [monitorRun, monitorLoop_wakeTicks, List.length_range]
  · exact Nat.mul_div_cancel_left env.tickRateHz (by norm_num)

/-- C9: if creating the queue or the sink mutex fails, `app_main` reports the
failure and aborts before any task is created — its trace contains the
failure report and no task-creation event, so no worker ever runs. -/
theorem startup_failure_aborts_before_workers :
    ∀ env : StartupEnv, env.queueOk = false ∨ env.mutexOk = false →
      (appMain env).filter isCreateTaskEv = [] ∧
      StartEv.print "Failed to create synchronization objects!" ∈ appMain env := by
  intro env h
  have hb : (!env.queueOk || !env.mutexOk) = true := by
    rcases h with h | h <;> simp [h]
  constructor
  · simp [appMain, hb, isCreateTaskEv]
  · simp [appMain, hb]

/-- C9 witness: the abort behaviour at the concrete environment whose queue
creation fails. -/
theorem startup_failure_aborts_before_workers_witness :
    (appMain startEnvFail).filter isCreateTaskEv = [] ∧
    StartEv.print "Failed to create synchronization objects!" ∈ appMain startEnvFail :=
  startup_failure_aborts_before_workers startEnvFail (Or.inl rfl)

theorem sinkInv_init (pend : Nat → List (List Char)) : sinkInv (sinkInit pend) :=
  ⟨rfl, trivial⟩

theorem sinkBlock_append (t : Nat) (a b : List Char) :
    sinkBlock (t, a ++ b) = sinkBlock (t, a) ++ sinkBlock (t, b) := by
  simp [sinkBlock]

theorem sinkInv_step {c c' : SinkCfg} (h : SinkStep c c') (hinv : sinkInv c) :
    sinkInv c' := by
  obtain ⟨hout, hk⟩ := hinv
  cases h with
  | start t s rest hcur hpend =>
    rw [hcur] at hout
    exact ⟨by simpa [sinkBlock] using hout, by simp⟩
  | put t s k hlt hcur =>
    rw [hcur] at hout hk
    have htake : s.take (k + 1) = s.take k ++ [s.get ⟨k, hlt⟩] := by
      rw [List.take_succ]
      simp [List.getElem?_eq_getElem hlt, List.get_eq_getElem]
    constructor
    · show c.output ++ [(t, s.get ⟨k, hlt⟩)] =
        (c.writesDone.map sinkBlock).flatten ++ sinkBlock (t, s.take (k + 1))
      rw [htake, sinkBlock_append, hout, List.append_assoc]
      rfl
    · show k + 1 ≤ s.length
      exact hlt
  | finish t s hcur =>
    rw [hcur] at hout hk
    constructor
    · show c.output = ((c.writesDone ++ [(t, s)]).map sinkBlock).flatten ++ []
      rw [hout]
      simp [List.take_length]
    · trivial

theorem sinkInv_reach {a c : SinkCfg} (h : Relation.ReflTransGen SinkStep a c)
    (ha : sinkInv a) : sinkInv c := by
  induction h with
  | refl => exact ha
  | tail _ hstep ih => exact sinkInv_step hstep ih

/-- C8: in every reachable configuration of the sink system in which no task
holds the mutex, the character stream written so far is exactly the completed
`safe_printf` calls laid out one after another, each as a contiguous,
unbroken block of its own characters — concurrent writers never interleave
within a logical write, because a writer holds the mutex from before
formatting until after its last character is written. -/
theorem sink_writes_contiguous :
    ∀ (pend : Nat → List (List Char)) (c : SinkCfg),
      SinkReach (sinkInit pend) c → c.cur = none →
      c.output = (c.writesDone.map sinkBlock).flatten := by
  intro pend c h hcur
  obtain ⟨hout, -⟩ := sinkInv_reach h (sinkInv_init pend)
  rw [hcur] at hout
  simpa using hout

/-- C8 witness: under the workload `pendW`, the configuration reached after
task 0 acquires the mutex, writes both characters of its call, and releases,
has its whole output equal to that one contiguous completed write. -/
theorem sink_writes_contiguous_witness :
    sinkFinalW.output = (sinkFinalW.writesDone.map sinkBlock).flatten := by
  refine sink_writes_contiguous pendW sinkFinalW ?_ rfl
  exact Relation.ReflTransGen.head
    (SinkStep.start (sinkInit pendW) 0 ['a', 'b'] [] rfl rfl)
    (Relation.ReflTransGen.head
      (SinkStep.put _ 0 ['a', 'b'] 0 (by norm_num) rfl)
      (Relation.ReflTransGen.head
        (SinkStep.put _ 0 ['a', 'b'] 1 (by norm_num) rfl)
        (Relation.ReflTransGen.single
          (SinkStep.finish _ 0 ['a', 'b'] rfl))))
